import Mathlib

/-!
Verification of the physics/terrain core of the Biker Lane game
(src/App.tsx). The simulation works on JavaScript numbers, modelled here
as real numbers. Every definition below is translated from the source:
constants from the constant block at the top of App.tsx, terrain
generation from generateTerrain, terrain sampling from getTerrainHeight,
the per-frame physics step from gameLoop, and level initialisation from
startLevel.
-/

open scoped Classical

noncomputable section

/-- Constant GRAVITY from App.tsx. -/
def GRAVITY : ℝ := 0.22

/-- Constant ACCELERATION from App.tsx. -/
def ACCELERATION : ℝ := 0.25

/-- Constant NITRO_ACCELERATION from App.tsx. -/
def NITRO_ACCELERATION : ℝ := 0.8

/-- Constant BRAKE_FORCE from App.tsx. -/
def BRAKE_FORCE : ℝ := 0.4

/-- Constant FRICTION from App.tsx. -/
def FRICTION : ℝ := 0.96

/-- Constant MAX_SPEED from App.tsx. -/
def MAX_SPEED : ℝ := 28

/-- Constant MAX_NITRO_SPEED from App.tsx. -/
def MAX_NITRO_SPEED : ℝ := 60

/-- Constant ROTATION_SPEED from App.tsx. -/
def ROTATION_SPEED : ℝ := 0.04

/-- Constant AIR_ROTATION_BOOST from App.tsx (bonus rotation speed in air). -/
def AIR_ROTATION_BOOST : ℝ := 1.8

/-- Constant ANGULAR_DAMPING from App.tsx. -/
def ANGULAR_DAMPING : ℝ := 0.92

/-- Constant WHEEL_BASE from App.tsx. -/
def WHEEL_BASE : ℝ := 70

/-- Constant CANVAS_HEIGHT from App.tsx. -/
def CANVAS_HEIGHT : ℝ := 1080

/-- A terrain sample, the Point shape used by App.tsx. -/
structure Point where
  x : ℝ
  y : ℝ

/-- The BikePhysics record of App.tsx: pose of the bike. -/
structure BikePhysics where
  x : ℝ
  y : ℝ
  velocity : ℝ
  angle : ℝ
  angularVelocity : ℝ
  lean : ℝ

/-- The input flag snapshot held in inputsRef in App.tsx. -/
structure InputsState where
  throttle : Bool
  brake : Bool
  left : Bool
  right : Bool
  nitro : Bool

/-- The GameState enumeration imported by App.tsx from ./types; its
constructors are exactly the members App.tsx uses. -/
inductive GameState where
  | MENU
  | LEVEL_SELECT
  | PLAYING
  | PAUSED
  | CRASHED
  | WON
  | SHOP
  | CREDITS
  | POLICY
deriving DecidableEq

/-- JavaScript truncation toward zero, as used by the % operator. -/
def jsTrunc (r : ℝ) : ℤ :=
  if 0 ≤ r then ⌊r⌋ else ⌈r⌉

/-- The JavaScript remainder operator a % b: the remainder with the sign
of the dividend, a - b * trunc (a / b). -/
def jsRem (a b : ℝ) : ℝ :=
  a - b * (jsTrunc (a / b) : ℝ)

/-- Math.atan2 y x: the argument of the complex number x + y i, in the
interval (-pi, pi]. -/
def atan2 (y x : ℝ) : ℝ :=
  Complex.arg ⟨x, y⟩

/-- JavaScript array indexing terrain[i] for an integer index: a value is
produced only when 0 <= i < length (otherwise the access is undefined). -/
def listGetI (terrain : List Point) (i : ℤ) : Option Point :=
  if 0 ≤ i then terrain.get? i.toNat else none

/-- The y value computed by one iteration of the generateTerrain loop in
App.tsx, for loop index i (the initial currentY of the source is
overwritten before being read, so it does not appear). -/
def terrainPointY (totalSegments : ℤ) (seed : ℝ) (i : ℕ) : ℝ :=
  let rampFrequency : ℝ := 0.15
  let rampHeight : ℝ := 400
  let noise1 := Real.sin ((i : ℝ) * 0.1 + seed) * 100
  let rampPhase := (i : ℝ) * rampFrequency + seed * 3
  let ramp := (Real.sin rampPhase) ^ 5
  let noise2 := if ramp > 0 then ramp * rampHeight else 0
  let noiseA := noise1 + noise2
  let noiseB := if (i : ℕ) < 20 then noiseA * ((i : ℝ) / 20) else noiseA
  let noiseC :=
    if (i : ℤ) > totalSegments - 20 then
      noiseB * ((((totalSegments : ℝ) - (i : ℝ))) / 20)
    else noiseB
  let currentY := CANVAS_HEIGHT * 0.7 - noiseC
  let clampedHigh := if currentY > CANVAS_HEIGHT - 50 then CANVAS_HEIGHT - 50 else currentY
  if clampedHigh < 100 then 100 else clampedHigh

/-- generateTerrain from App.tsx: samples every 50 units from index 0 to
totalSegments = ceil (length / 50) inclusive (the source loop body runs
zero times when totalSegments is negative). -/
def generateTerrain (length seed : ℝ) : List Point :=
  let segmentLength : ℝ := 50
  let totalSegments : ℤ := ⌈length / segmentLength⌉
  if totalSegments < 0 then []
  else
    (List.range (totalSegments.toNat + 1)).map
      (fun (i : ℕ) => ⟨(i : ℝ) * segmentLength, terrainPointY totalSegments seed i⟩)

/-- getTerrainHeight from App.tsx with every array access made explicit:
returns none exactly when the JavaScript code would read a missing array
element (and hence produce undefined). -/
def getTerrainHeightOpt (x : ℝ) (terrain : List Point) : Option ℝ :=
  if x < 0 then (terrain.get? 0).map Point.y
  else
    let segmentLength : ℝ := 50
    let index : ℤ := ⌊x / segmentLength⌋
    if index ≥ (terrain.length : ℤ) - 1 then
      (listGetI terrain ((terrain.length : ℤ) - 1)).map Point.y
    else
      match listGetI terrain index, listGetI terrain (index + 1) with
      | some p1, some p2 => some (p1.y + (p2.y - p1.y) * ((x - p1.x) / segmentLength))
      | _, _ => none

/-- getTerrainHeight from App.tsx as a total real function (the junk
value 0 is only produced on an empty profile, where the source would
read undefined). -/
def getTerrainHeight (x : ℝ) (terrain : List Point) : ℝ :=
  (getTerrainHeightOpt x terrain).getD 0

/-- The whole mutable state the game loop and startLevel touch: the
persistent data saved by saveData, the React game state, the current
level, the timer, and the per-run refs (bike pose, inputs, terrain). -/
structure SysState where
  unlockedLevels : ℕ
  coins : ℕ
  ownedBikes : List ℕ
  selectedBikeId : ℕ
  gameState : GameState
  currentLevel : ℕ
  time : ℝ
  startTime : ℝ
  bike : BikePhysics
  inputs : InputsState
  terrain : List Point

/-- frontX of gameLoop: projected front wheel contact. -/
def frontWheelX (bike : BikePhysics) : ℝ :=
  bike.x + Real.cos bike.angle * WHEEL_BASE

/-- isAirborne of gameLoop: rear wheel further than 10 units from the
ground height under it. -/
def isAirborne (bike : BikePhysics) (terrain : List Point) : Prop :=
  |bike.y - getTerrainHeight bike.x terrain| > 10

/-- targetAngle of gameLoop: terrain slope the bike should align to. -/
def targetAngle (bike : BikePhysics) (terrain : List Point) : ℝ :=
  atan2 (getTerrainHeight (frontWheelX bike) terrain - getTerrainHeight bike.x terrain)
    (frontWheelX bike - bike.x)

/-- currentMaxSpeed of gameLoop: the speed cap in force this tick. -/
def currentMaxSpeed (inputs : InputsState) : ℝ :=
  if inputs.nitro then MAX_NITRO_SPEED else MAX_SPEED

/-- The longitudinal velocity produced by one gameLoop tick, in source
order: slope gravity, throttle, nitro, brake, friction, then the clamp
to the speed caps. -/
def newVelocity (bike : BikePhysics) (inputs : InputsState) : ℝ :=
  let v1 := bike.velocity + Real.sin bike.angle * GRAVITY
  let v2 := if inputs.throttle then v1 + ACCELERATION else v1
  let v3 := if inputs.nitro then v2 + NITRO_ACCELERATION else v2
  let v4 := if inputs.brake then v3 - BRAKE_FORCE else v3
  let v5 := v4 * FRICTION
  let v6 := if v5 > currentMaxSpeed inputs then currentMaxSpeed inputs else v5
  if v6 < -MAX_SPEED then -MAX_SPEED else v6

/-- The x position produced by one gameLoop tick. -/
def newBikeX (bike : BikePhysics) (inputs : InputsState) : ℝ :=
  bike.x + Real.cos bike.angle * newVelocity bike inputs

/-- The angular velocity produced by one gameLoop tick, in source order:
nitro auto-flip while airborne, ground-alignment spring, manual rotation
(with the air boost when the angle differs sharply from the terrain
angle), then angular damping. -/
def newAngularVelocity (bike : BikePhysics) (inputs : InputsState) (terrain : List Point) : ℝ :=
  let av1 := if inputs.nitro ∧ isAirborne bike terrain
    then bike.angularVelocity - 0.02 else bike.angularVelocity
  let angleDiff := targetAngle bike terrain - bike.angle
  let stability : ℝ := if inputs.nitro then 0.05 else 0.15
  let av2 := av1 + angleDiff * stability
  let rotationForce := if |angleDiff| > 0.5 then ROTATION_SPEED * AIR_ROTATION_BOOST
    else ROTATION_SPEED
  let av3 := if inputs.left then av2 - rotationForce else av2
  let av4 := if inputs.right then av3 + rotationForce else av3
  av4 * ANGULAR_DAMPING

/-- The heading angle produced by one gameLoop tick. -/
def newAngle (bike : BikePhysics) (inputs : InputsState) (terrain : List Point) : ℝ :=
  bike.angle + newAngularVelocity bike inputs terrain

/-- normalizedAngle of gameLoop: Math.abs (angle % (2 pi)). -/
def normalizedAngle (angle : ℝ) : ℝ :=
  |jsRem angle (2 * Real.pi)|

/-- The head-collision window test of gameLoop. -/
def inCrashWindow (m : ℝ) : Prop :=
  m > Real.pi / 1.8 ∧ m < Real.pi * 1.5

/-- The finish line x of gameLoop: terrain[terrain.length - 20].x, which
is an undefined read when the profile has fewer than 20 samples. -/
def finishLineX (terrain : List Point) : Option ℝ :=
  (listGetI terrain ((terrain.length : ℤ) - 20)).map Point.x

/-- The win test of gameLoop: the updated x has reached the finish line
(a comparison against an undefined finish line is false in JavaScript,
hence false here when the finish sample does not exist). -/
def wonCond (bike : BikePhysics) (inputs : InputsState) (terrain : List Point) : Prop :=
  match finishLineX terrain with
  | some f => newBikeX bike inputs ≥ f
  | none => False

/-- The body of gameLoop in App.tsx (everything after the PLAYING guard):
updates the pose, decides crash and win, pays the reward and raises the
unlocked level on a win (saveData), and updates the timer. The later
setGameState of the win check overwrites the crash transition when both
fire. -/
def gameLoopBody (now : ℝ) (s : SysState) : SysState :=
  let crashed := inCrashWindow (normalizedAngle (newAngle s.bike s.inputs s.terrain))
  let won := wonCond s.bike s.inputs s.terrain
  { s with
    bike :=
      { x := newBikeX s.bike s.inputs
        y := getTerrainHeight s.bike.x s.terrain
        velocity := newVelocity s.bike s.inputs
        angle := newAngle s.bike s.inputs s.terrain
        angularVelocity := newAngularVelocity s.bike s.inputs s.terrain
        lean := s.bike.lean }
    gameState :=
      if won then GameState.WON
      else if crashed then GameState.CRASHED
      else GameState.PLAYING
    unlockedLevels :=
      if won then max s.unlockedLevels (s.currentLevel + 1) else s.unlockedLevels
    coins := if won then s.coins + (50 + s.currentLevel * 25) else s.coins
    time := (now - s.startTime) / 1000 }

/-- gameLoop from App.tsx: a no-op unless the game state is PLAYING. -/
def gameLoopStep (now : ℝ) (s : SysState) : SysState :=
  if s.gameState = GameState.PLAYING then gameLoopBody now s else s

/-- startLevel from App.tsx: rejected outright when the level is locked,
otherwise regenerates the terrain, resets the pose, inputs and timer,
and enters PLAYING. -/
def startLevel (levelId : ℕ) (now : ℝ) (s : SysState) : SysState :=
  if levelId > s.unlockedLevels then s
  else
    let seed : ℝ := (levelId : ℝ) * 777
    let length : ℝ := 4000 + (levelId : ℝ) * 1500
    let terrain := generateTerrain length seed
    { s with
      terrain := terrain
      bike :=
        { x := 100
          y := getTerrainHeight 100 terrain
          velocity := 0
          angle := 0
          angularVelocity := 0
          lean := 0 }
      inputs := ⟨false, false, false, false, false⟩
      time := 0
      startTime := now
      currentLevel := levelId
      gameState := GameState.PLAYING }

/-- A three-sample flat profile at height 300. -/
def flat3 : List Point := [⟨0, 300⟩, ⟨50, 300⟩, ⟨100, 300⟩]

/-- A flat profile at height 300 with n samples spaced 50 apart. -/
def flatN (n : ℕ) : List Point := (List.range n).map (fun (i : ℕ) => ⟨50 * i, 300⟩)

/-- A concrete system state sitting in the CRASHED outcome. -/
def crashedState : SysState :=
  ⟨1, 0, [0], 0, GameState.CRASHED, 1, 0, 0, ⟨0, 0, 0, 0, 0, 0⟩,
    ⟨false, false, false, false, false⟩, []⟩

/-- A 21-sample flat run state whose bike already sits past the finish
line sample, used to exercise the win transition. -/
def winState : SysState :=
  ⟨1, 0, [0], 0, GameState.PLAYING, 1, 0, 0, ⟨100, 300, 0, 0, 0, 0⟩,
    ⟨false, false, false, false, false⟩, flatN 21⟩

/-- A two-sample uniformly spaced profile used to exercise the sampler. -/
def sampleProfile : List Point := [⟨0, 10⟩, ⟨50, 30⟩]

/-- The throttle-only input snapshot. -/
def throttleInputs : InputsState := ⟨true, false, false, false, false⟩

/-- The flat-ground throttle scenario of the spec: upright bike at height
300 on the flat profile, throttle held, everything else idle. -/
def c5State (tm X V : ℝ) : SysState :=
  ⟨1, 0, [0], 0, GameState.PLAYING, 1, tm, 0, ⟨X, 300, V, 0, 0, 0⟩, throttleInputs, flat3⟩

/-- The run of the throttle scenario from rest. -/
def c5Init : SysState := c5State 0 100 0

/-- The per-tick velocity sequence of the throttle scenario. -/
noncomputable def vSeq (n : ℕ) : ℝ := ((gameLoopStep 0)^[n] c5Init).bike.velocity

/-- The all-idle input snapshot. -/
def idleInputs : InputsState := ⟨false, false, false, false, false⟩

/-- An exactly inverted pose already past the finish line of a 21-sample
flat profile. -/
noncomputable def c9PiWinState : SysState :=
  ⟨1, 0, [0], 0, GameState.PLAYING, 1, 0, 0, ⟨100, 300, 0, Real.pi, 0, 0⟩,
    idleInputs, flatN 21⟩

/-- An exactly inverted pose with no spin on the short flat profile,
where the win check can never fire. -/
noncomputable def c9PiState : SysState :=
  ⟨1, 0, [0], 0, GameState.PLAYING, 1, 0, 0, ⟨100, 300, 0, Real.pi, 0, 0⟩,
    idleInputs, flat3⟩

/-- An upright resting pose on the short flat profile. -/
def c9ZeroState : SysState :=
  ⟨1, 0, [0], 0, GameState.PLAYING, 1, 0, 0, ⟨100, 300, 0, 0, 0, 0⟩,
    idleInputs, flat3⟩

/-- Written from the claim's words, for comparison with the code: the
normalization of the angle into [0, 2 pi) by modulus, that is, the
mathematical remainder theta mod 2 pi. -/
noncomputable def claimNormalizedAngle (θ : ℝ) : ℝ :=
  θ - 2 * Real.pi * (⌊θ / (2 * Real.pi)⌋ : ℝ)

/-- A pose at angle -1.6 radians, with the angular velocity chosen so the
alignment spring exactly cancels and the tick leaves the angle at -1.6,
on the short flat profile. -/
noncomputable def c1State : SysState :=
  ⟨1, 0, [0], 0, GameState.PLAYING, 1, 0, 0,
    ⟨100, 300, 0, -1.6, -0.15 * (Real.pi + 1.6), 0⟩, idleInputs, flat3⟩

end

/-! ## Helper lemmas -/

/-- On a profile whose samples all have the same height, the sampler
returns that height at every position. -/
lemma getTerrainHeight_const {c : ℝ} {t : List Point} (hne : t ≠ [])
    (hc : ∀ p ∈ t, p.y = c) (x : ℝ) : getTerrainHeight x t = c := by
  have hlen : 0 < t.length := List.length_pos.mpr hne
  by_cases h0 : x < 0
  · obtain ⟨p, hp⟩ : ∃ p, t.get? 0 = some p := by
      cases t with
      | nil => exact absurd rfl hne
      | cons a l => exact ⟨a, rfl⟩
    have hy := hc p (List.get?_mem hp)
    simp only [getTerrainHeight, getTerrainHeightOpt]
    rw [if_pos h0, hp]
    simp [hy]
  · by_cases h1 : ⌊x / (50:ℝ)⌋ ≥ (t.length : ℤ) - 1
    · have hnn : (0:ℤ) ≤ (t.length : ℤ) - 1 := by omega
      have htn : ((t.length : ℤ) - 1).toNat = t.length - 1 := by omega
      have h2 : t.length - 1 < t.length := by omega
      have hg : t.get? (t.length - 1) = some (t.get ⟨t.length - 1, h2⟩) := List.get?_eq_get h2
      have hy : (t.get ⟨t.length - 1, h2⟩).y = c := hc _ (List.get_mem t _ h2)
      simp only [getTerrainHeight, getTerrainHeightOpt, listGetI]
      rw [if_neg h0, if_pos h1, if_pos hnn, htn, hg]
      simpa using hy
    · have hx0 : 0 ≤ x := le_of_not_lt h0
      have hi0 : (0:ℤ) ≤ ⌊x / (50:ℝ)⌋ := Int.floor_nonneg.mpr (div_nonneg hx0 (by norm_num))
      have h1i : ⌊x / (50:ℝ)⌋ < (t.length : ℤ) - 1 := lt_of_not_ge h1
      have hi1 : (⌊x / (50:ℝ)⌋).toNat < t.length := by omega
      have hi2 : (⌊x / (50:ℝ)⌋ + 1).toNat < t.length := by omega
      have hg1 : t.get? (⌊x / (50:ℝ)⌋).toNat =
          some (t.get ⟨(⌊x / (50:ℝ)⌋).toNat, hi1⟩) := List.get?_eq_get hi1
      have hg2 : t.get? ((⌊x / (50:ℝ)⌋ + 1).toNat) =
          some (t.get ⟨(⌊x / (50:ℝ)⌋ + 1).toNat, hi2⟩) := List.get?_eq_get hi2
      have hy1 := hc _ (List.get_mem t _ hi1)
      have hy2 := hc _ (List.get_mem t _ hi2)
      simp only [getTerrainHeight, getTerrainHeightOpt, listGetI]
      rw [if_neg h0, if_neg h1, if_pos hi0, if_pos (by omega : (0:ℤ) ≤ ⌊x / (50:ℝ)⌋ + 1),
        hg1, hg2]
      simp only [List.get_eq_getElem] at hy1 hy2
      simp [hy1, hy2]

lemma flat3_ne : flat3 ≠ [] := by simp [flat3]

lemma flat3_height (x : ℝ) : getTerrainHeight x flat3 = 300 := by
  refine getTerrainHeight_const flat3_ne ?_ x
  intro p hp
  simp only [flat3, List.mem_cons, List.mem_singleton, List.not_mem_nil, or_false] at hp
  rcases hp with h | h | h <;> rw [h]

lemma flatN_ne {n : ℕ} (h : 0 < n) : flatN n ≠ [] := by
  simp [flatN, List.range_eq_nil]
  omega

lemma flatN_height {n : ℕ} (h : 0 < n) (x : ℝ) : getTerrainHeight x (flatN n) = 300 := by
  refine getTerrainHeight_const (flatN_ne h) ?_ x
  intro p hp
  simp only [flatN, List.mem_map] at hp
  obtain ⟨i, _, hi⟩ := hp
  rw [← hi]

/-! ## Claims -/

/-- Claim C2: speed clamp invariant. After any single tick, for every
starting pose, terrain and input combination, the velocity lies between
-MAX_SPEED and the cap in force (MAX_NITRO_SPEED under nitro, MAX_SPEED
otherwise). -/
theorem claim2_speed_clamp (now : ℝ) (s : SysState) :
    -MAX_SPEED ≤ (gameLoopBody now s).bike.velocity ∧
      (gameLoopBody now s).bike.velocity ≤ currentMaxSpeed s.inputs := by
  have h : (gameLoopBody now s).bike.velocity = newVelocity s.bike s.inputs := rfl
  rw [h]
  constructor <;>
    · simp only [newVelocity, currentMaxSpeed, MAX_SPEED, MAX_NITRO_SPEED]
      split_ifs <;> linarith

/-- Claim C8: generator determinism. Two calls of generateTerrain with
identical arguments produce identical sample sequences: the same list,
hence the same sample count and pointwise equal samples. The embedding
of generateTerrain is a pure function of its two arguments because the
source computes every sample from i, seed and totalSegments alone. -/
theorem claim8_generator_determinism (length seed : ℝ) :
    generateTerrain length seed = generateTerrain length seed ∧
      (generateTerrain length seed).length = (generateTerrain length seed).length ∧
      ∀ i : ℕ, (generateTerrain length seed).get? i = (generateTerrain length seed).get? i :=
  ⟨rfl, rfl, fun _ => rfl⟩

/-- Claim C1 (amended): the tick normalizes the angle as the absolute
value of the JavaScript remainder by 2 pi (a value in [0, 2 pi) that
agrees with the true modulus only for non-negative angles), and the run
ends the tick Crashed exactly when that value lies strictly between
pi / 1.8 and 1.5 pi and the win condition does not also fire (the win
check runs later and overwrites the transition). The test uses no
airborne information beyond the angle update itself. -/
theorem claim1_crash_window_remainder (now : ℝ) (s : SysState) :
    (gameLoopBody now s).gameState = GameState.CRASHED ↔
      (inCrashWindow (normalizedAngle (newAngle s.bike s.inputs s.terrain)) ∧
        ¬ wonCond s.bike s.inputs s.terrain) := by
  have h : (gameLoopBody now s).gameState =
      (if wonCond s.bike s.inputs s.terrain then GameState.WON
       else if inCrashWindow (normalizedAngle (newAngle s.bike s.inputs s.terrain))
         then GameState.CRASHED else GameState.PLAYING) := rfl
  rw [h]
  split_ifs with h1 h2
  · simp [h1]
  · simp [h1, h2]
  · simp [h1, h2]

/-- Claim C4: terminal outcome. Once the state is Crashed or Won, any
number of further frames leaves the whole system state untouched: the
loop body is guarded by the PLAYING check. -/
theorem claim4_terminal_outcome (now : ℝ) (s : SysState)
    (h : s.gameState = GameState.CRASHED ∨ s.gameState = GameState.WON) (n : ℕ) :
    (gameLoopStep now)^[n] s = s := by
  have hstep : gameLoopStep now s = s := by
    unfold gameLoopStep
    rcases h with h | h <;> rw [h] <;> simp
  induction n with
  | zero => rfl
  | succ k ih => rw [Function.iterate_succ_apply, hstep, ih]

theorem claim4_witness : (gameLoopStep 0)^[3] crashedState = crashedState :=
  claim4_terminal_outcome 0 crashedState (Or.inl rfl) 3

/-- Claim C6: level gate. Starting a level above the unlocked count is a
silent no-op: the whole system state, pose, terrain, timer and
persistent data included, is returned unchanged. -/
theorem claim6_level_gate (levelId : ℕ) (now : ℝ) (s : SysState)
    (h : levelId > s.unlockedLevels) : startLevel levelId now s = s := by
  unfold startLevel
  rw [if_pos h]

theorem claim6_witness :
    5 > crashedState.unlockedLevels ∧ startLevel 5 7 crashedState = crashedState :=
  ⟨by norm_num [crashedState], claim6_level_gate 5 7 crashedState (by norm_num [crashedState])⟩

/-- Claim C3: win postcondition. Whenever the tick finds the updated x at
or beyond the finish line sample (terrain[length - 20].x), the run ends
the tick Won, the coins grow by the reward 50 + 25 * level, and the
unlocked-level count becomes the maximum of its old value and level + 1. -/
theorem claim3_win_postcondition (now : ℝ) (s : SysState)
    (h : wonCond s.bike s.inputs s.terrain) :
    (gameLoopBody now s).gameState = GameState.WON ∧
      (gameLoopBody now s).coins = s.coins + (50 + s.currentLevel * 25) ∧
      (gameLoopBody now s).unlockedLevels = max s.unlockedLevels (s.currentLevel + 1) := by
  have hs : (gameLoopBody now s).gameState =
      (if wonCond s.bike s.inputs s.terrain then GameState.WON
       else if inCrashWindow (normalizedAngle (newAngle s.bike s.inputs s.terrain))
         then GameState.CRASHED else GameState.PLAYING) := rfl
  have hcoins : (gameLoopBody now s).coins =
      (if wonCond s.bike s.inputs s.terrain then s.coins + (50 + s.currentLevel * 25)
       else s.coins) := rfl
  have hul : (gameLoopBody now s).unlockedLevels =
      (if wonCond s.bike s.inputs s.terrain then max s.unlockedLevels (s.currentLevel + 1)
       else s.unlockedLevels) := rfl
  rw [hs, hcoins, hul, if_pos h, if_pos h, if_pos h]
  exact ⟨rfl, rfl, rfl⟩

lemma flatN21_finish : finishLineX (flatN 21) = some 50 := by
  have h1 : ((flatN 21).length : ℤ) - 20 = 1 := by simp [flatN]
  simp only [finishLineX, listGetI, h1]
  norm_num [flatN, List.get?_map, List.get?_range]

lemma winState_newVelocity : newVelocity winState.bike winState.inputs = 0 := by
  norm_num [winState, newVelocity, currentMaxSpeed, MAX_SPEED, MAX_NITRO_SPEED, GRAVITY,
    ACCELERATION, NITRO_ACCELERATION, BRAKE_FORCE, FRICTION]

lemma winState_won : wonCond winState.bike winState.inputs winState.terrain := by
  have ht : winState.terrain = flatN 21 := rfl
  rw [wonCond.eq_def, ht, flatN21_finish]
  rw [newBikeX, winState_newVelocity]
  norm_num [winState]

theorem claim3_witness :
    wonCond winState.bike winState.inputs winState.terrain ∧
      (gameLoopBody 4 winState).gameState = GameState.WON ∧
      (gameLoopBody 4 winState).coins = winState.coins + (50 + winState.currentLevel * 25) ∧
      (gameLoopBody 4 winState).unlockedLevels =
        max winState.unlockedLevels (winState.currentLevel + 1) :=
  ⟨winState_won, claim3_win_postcondition 4 winState winState_won⟩

/-- Claim C10: sampler totality. On a non-empty profile every array read
of getTerrainHeight is in bounds and a height is produced; on the empty
profile the very first read (terrain[0] when x is negative, the
terrain[length - 1] fallback otherwise) is out of bounds, so no height
is produced. -/
theorem claim10_sampler_totality (x : ℝ) (t : List Point) :
    (t ≠ [] → (getTerrainHeightOpt x t).isSome = true) ∧
      (t = [] → getTerrainHeightOpt x t = none) := by
  constructor
  · intro hne
    have hlen : 0 < t.length := List.length_pos.mpr hne
    by_cases h0 : x < 0
    · obtain ⟨p, hp⟩ : ∃ p, t.get? 0 = some p := by
        cases t with
        | nil => exact absurd rfl hne
        | cons a l => exact ⟨a, rfl⟩
      simp only [getTerrainHeightOpt]
      rw [if_pos h0, hp]
      rfl
    · by_cases h1 : ⌊x / (50:ℝ)⌋ ≥ (t.length : ℤ) - 1
      · have hnn : (0:ℤ) ≤ (t.length : ℤ) - 1 := by omega
        have htn : ((t.length : ℤ) - 1).toNat = t.length - 1 := by omega
        have h2 : t.length - 1 < t.length := by omega
        have hg : t.get? (t.length - 1) = some (t.get ⟨t.length - 1, h2⟩) :=
          List.get?_eq_get h2
        simp only [getTerrainHeightOpt, listGetI]
        rw [if_neg h0, if_pos h1, if_pos hnn, htn, hg]
        rfl
      · have hx0 : 0 ≤ x := le_of_not_lt h0
        have hi0 : (0:ℤ) ≤ ⌊x / (50:ℝ)⌋ := Int.floor_nonneg.mpr (div_nonneg hx0 (by norm_num))
        have h1i : ⌊x / (50:ℝ)⌋ < (t.length : ℤ) - 1 := lt_of_not_ge h1
        have hi1 : (⌊x / (50:ℝ)⌋).toNat < t.length := by omega
        have hi2 : (⌊x / (50:ℝ)⌋ + 1).toNat < t.length := by omega
        have hg1 : t.get? (⌊x / (50:ℝ)⌋).toNat =
            some (t.get ⟨(⌊x / (50:ℝ)⌋).toNat, hi1⟩) := List.get?_eq_get hi1
        have hg2 : t.get? ((⌊x / (50:ℝ)⌋ + 1).toNat) =
            some (t.get ⟨(⌊x / (50:ℝ)⌋ + 1).toNat, hi2⟩) := List.get?_eq_get hi2
        simp only [getTerrainHeightOpt, listGetI]
        rw [if_neg h0, if_neg h1, if_pos hi0, if_pos (by omega : (0:ℤ) ≤ ⌊x / (50:ℝ)⌋ + 1),
          hg1, hg2]
        rfl
  · intro he
    subst he
    by_cases h0 : x < 0
    · simp [getTerrainHeightOpt, h0]
    · have hx0 : 0 ≤ x := le_of_not_lt h0
      have hf0 : (0:ℤ) ≤ ⌊x / (50:ℝ)⌋ := Int.floor_nonneg.mpr (div_nonneg hx0 (by norm_num))
      simp only [getTerrainHeightOpt, listGetI]
      rw [if_neg h0, if_pos (by simp; omega : ⌊x / (50:ℝ)⌋ ≥ (([] : List Point).length : ℤ) - 1)]
      simp

theorem claim10_witness :
    (getTerrainHeightOpt 7 [⟨0, 5⟩]).isSome = true ∧
      getTerrainHeightOpt 7 ([] : List Point) = none :=
  ⟨(claim10_sampler_totality 7 [⟨0, 5⟩]).1 (by simp),
    (claim10_sampler_totality 7 ([] : List Point)).2 rfl⟩

/-- Sampler on negative x: the first sample's height. -/
lemma sampler_neg {t : List Point} (hne : t ≠ []) {x : ℝ} (h0 : x < 0) :
    getTerrainHeight x t = (t.head hne).y := by
  obtain ⟨p, hp, hph⟩ : ∃ p, t.get? 0 = some p ∧ p = t.head hne := by
    cases t with
    | nil => exact absurd rfl hne
    | cons a l => exact ⟨a, rfl, rfl⟩
  simp only [getTerrainHeight, getTerrainHeightOpt]
  rw [if_pos h0, hp, hph]
  rfl

/-- Sampler at or beyond the x of the last sample: the last sample's
height (the guard on the segment index fires). -/
lemma sampler_last {t : List Point} (hne : t ≠ []) {x : ℝ}
    (h : 50 * ((t.length : ℝ) - 1) ≤ x) :
    getTerrainHeight x t = (t.getLast hne).y := by
  have hlen : 0 < t.length := List.length_pos.mpr hne
  have hlen1 : (1 : ℝ) ≤ (t.length : ℝ) := by exact_mod_cast hlen
  have h0 : ¬ x < 0 := by push_neg; nlinarith
  have h1 : ⌊x / (50:ℝ)⌋ ≥ (t.length : ℤ) - 1 := by
    rw [ge_iff_le, Int.le_floor]
    push_cast
    linarith
  have hnn : (0:ℤ) ≤ (t.length : ℤ) - 1 := by omega
  have htn : ((t.length : ℤ) - 1).toNat = t.length - 1 := by omega
  have h2 : t.length - 1 < t.length := by omega
  have hg : t.get? (t.length - 1) = some (t.get ⟨t.length - 1, h2⟩) := List.get?_eq_get h2
  have hlast : t.getLast hne = t.get ⟨t.length - 1, h2⟩ := List.getLast_eq_get t hne
  simp only [getTerrainHeight, getTerrainHeightOpt, listGetI]
  rw [if_neg h0, if_pos h1, if_pos hnn, htn, hg, hlast]
  rfl

/-- Sampler inside segment k: linear interpolation between the two
endpoint samples of that segment. -/
lemma sampler_interp {t : List Point} {x : ℝ} {k : ℕ} (hk : k + 1 < t.length)
    (hx1 : 50 * (k : ℝ) ≤ x) (hx2 : x < 50 * ((k : ℝ) + 1)) :
    getTerrainHeight x t =
      (t.get ⟨k, by omega⟩).y +
        ((t.get ⟨k + 1, hk⟩).y - (t.get ⟨k, by omega⟩).y) *
          ((x - (t.get ⟨k, by omega⟩).x) / 50) := by
  have hk0 : k < t.length := by omega
  have hxnn : (0:ℝ) ≤ x := le_trans (by positivity) hx1
  have h0 : ¬ x < 0 := not_lt.mpr hxnn
  have hfl : ⌊x / (50:ℝ)⌋ = (k : ℤ) := by
    rw [Int.floor_eq_iff]
    constructor
    · push_cast
      linarith
    · push_cast
      linarith
  have hgk : t.get? k = some (t.get ⟨k, hk0⟩) := List.get?_eq_get hk0
  have hgk1 : t.get? (k + 1) = some (t.get ⟨k + 1, hk⟩) := List.get?_eq_get hk
  simp only [getTerrainHeight, getTerrainHeightOpt, listGetI, hfl]
  rw [if_neg h0, if_neg (by omega : ¬ ((k:ℤ) ≥ (t.length : ℤ) - 1)),
    if_pos (by omega : (0:ℤ) ≤ (k:ℤ)), if_pos (by omega : (0:ℤ) ≤ (k:ℤ) + 1),
    (by omega : ((k:ℤ)).toNat = k), (by omega : ((k:ℤ) + 1).toNat = k + 1), hgk, hgk1]
  rfl

/-- Sampler left limit at a segment boundary: the sampled height tends to
the boundary sample's height from the left, which equals the value at the
boundary itself, for uniformly spaced profiles. -/
lemma sampler_left_limit {t : List Point}
    (hsp : ∀ (i : ℕ) (h : i < t.length), (t.get ⟨i, h⟩).x = 50 * (i : ℝ))
    (hne : t ≠ []) {k : ℕ} (hk1 : 1 ≤ k) (hk2 : k < t.length) :
    Filter.Tendsto (fun z => getTerrainHeight z t)
      (nhdsWithin (50 * (k : ℝ)) (Set.Iio (50 * (k : ℝ))))
      (nhds (getTerrainHeight (50 * (k : ℝ)) t)) := by
  obtain ⟨j, rfl⟩ : ∃ j, k = j + 1 := ⟨k - 1, by omega⟩
  have hjlt : j < t.length := by omega
  set b : ℝ := 50 * ((j + 1 : ℕ) : ℝ) with hbdef
  have hb : (50 : ℝ) * (j : ℝ) < b := by rw [hbdef]; push_cast; linarith
  have hpjx : (t.get ⟨j, hjlt⟩).x = 50 * (j : ℝ) := hsp j hjlt
  have hcont : Continuous (fun z : ℝ =>
      (t.get ⟨j, hjlt⟩).y + ((t.get ⟨j + 1, hk2⟩).y - (t.get ⟨j, hjlt⟩).y) *
        ((z - (t.get ⟨j, hjlt⟩).x) / 50)) :=
    continuous_const.add
      (continuous_const.mul ((continuous_id.sub continuous_const).div_const 50))
  have hFb : (t.get ⟨j, hjlt⟩).y + ((t.get ⟨j + 1, hk2⟩).y - (t.get ⟨j, hjlt⟩).y) *
      ((b - (t.get ⟨j, hjlt⟩).x) / 50) = (t.get ⟨j + 1, hk2⟩).y := by
    rw [hbdef, hpjx]
    push_cast
    ring
  have hval : getTerrainHeight b t = (t.get ⟨j + 1, hk2⟩).y := by
    by_cases hend : j + 1 + 1 < t.length
    · have h1 : 50 * ((j + 1 : ℕ) : ℝ) ≤ b := by rw [hbdef]
      have h2 : b < 50 * (((j + 1 : ℕ) : ℝ) + 1) := by rw [hbdef]; push_cast; linarith
      rw [sampler_interp hend h1 h2, hsp (j + 1) hk2, hbdef]
      push_cast
      ring
    · have hlen2 : t.length = j + 2 := by omega
      have hge : 50 * ((t.length : ℝ) - 1) ≤ b := by rw [hbdef, hlen2]; push_cast; linarith
      rw [sampler_last hne hge, List.getLast_eq_get]
      have hidx : t.length - 1 = j + 1 := by omega
      simp only [hidx]
  have hmem : Set.Ioo (50 * (j : ℝ)) b ∈ nhdsWithin b (Set.Iio b) :=
    Ioo_mem_nhdsWithin_Iio ⟨hb, le_refl b⟩
  have heq : (fun z => getTerrainHeight z t) =ᶠ[nhdsWithin b (Set.Iio b)]
      (fun z : ℝ => (t.get ⟨j, hjlt⟩).y +
        ((t.get ⟨j + 1, hk2⟩).y - (t.get ⟨j, hjlt⟩).y) *
          ((z - (t.get ⟨j, hjlt⟩).x) / 50)) := by
    refine Filter.eventuallyEq_of_mem hmem (fun z hz => ?_)
    have hz1 : 50 * (j : ℝ) ≤ z := le_of_lt hz.1
    have hz2 : z < 50 * ((j : ℝ) + 1) := by
      have h3 := hz.2
      rw [hbdef] at h3
      push_cast at h3 ⊢
      linarith
    exact sampler_interp hk2 hz1 hz2
  have hT : Filter.Tendsto (fun z : ℝ => (t.get ⟨j, hjlt⟩).y +
      ((t.get ⟨j + 1, hk2⟩).y - (t.get ⟨j, hjlt⟩).y) *
        ((z - (t.get ⟨j, hjlt⟩).x) / 50)) (nhdsWithin b (Set.Iio b))
      (nhds ((t.get ⟨j, hjlt⟩).y + ((t.get ⟨j + 1, hk2⟩).y - (t.get ⟨j, hjlt⟩).y) *
        ((b - (t.get ⟨j, hjlt⟩).x) / 50))) :=
    (hcont.tendsto b).mono_left nhdsWithin_le_nhds
  rw [hval, ← hFb]
  exact Filter.Tendsto.congr' heq.symm hT

/-- Claim C7: sampler contract. For every non-empty uniformly spaced
profile (sample i at x = 50 i, the generator invariant), the sampler
returns the first height for negative x, the last height at or beyond
the last sample's x, the linear interpolation of the enclosing segment's
endpoint heights by fractional offset otherwise, and at every interior
segment boundary the value equals the left limit, so there is no jump. -/
theorem claim7_sampler_contract (t : List Point)
    (hsp : ∀ (i : ℕ) (h : i < t.length), (t.get ⟨i, h⟩).x = 50 * (i : ℝ))
    (hne : t ≠ []) (x : ℝ) (k : ℕ) :
    (x < 0 → getTerrainHeight x t = (t.head hne).y) ∧
    (50 * ((t.length : ℝ) - 1) ≤ x → getTerrainHeight x t = (t.getLast hne).y) ∧
    (∀ (hk : k + 1 < t.length), 50 * (k : ℝ) ≤ x → x < 50 * ((k : ℝ) + 1) →
      getTerrainHeight x t =
        (t.get ⟨k, by omega⟩).y +
          ((t.get ⟨k + 1, hk⟩).y - (t.get ⟨k, by omega⟩).y) * ((x - 50 * (k : ℝ)) / 50)) ∧
    (1 ≤ k → k < t.length →
      Filter.Tendsto (fun z => getTerrainHeight z t)
        (nhdsWithin (50 * (k : ℝ)) (Set.Iio (50 * (k : ℝ))))
        (nhds (getTerrainHeight (50 * (k : ℝ)) t))) := by
  refine ⟨fun h0 => sampler_neg hne h0, fun h => sampler_last hne h,
    fun hk hx1 hx2 => ?_, fun h1 h2 => sampler_left_limit hsp hne h1 h2⟩
  rw [sampler_interp hk hx1 hx2, hsp k (by omega)]

lemma sampleProfile_spacing : ∀ (i : ℕ) (h : i < sampleProfile.length),
    (sampleProfile.get ⟨i, h⟩).x = 50 * (i : ℝ) := by
  intro i h
  have hlt : i < 2 := by simpa [sampleProfile] using h
  interval_cases i <;> norm_num [sampleProfile]

lemma sampleProfile_ne : sampleProfile ≠ [] := by simp [sampleProfile]

theorem claim7_witness :
    getTerrainHeight (-2) sampleProfile = 10 ∧
      getTerrainHeight 120 sampleProfile = 30 ∧
      getTerrainHeight 25 sampleProfile = 20 ∧
      Filter.Tendsto (fun z => getTerrainHeight z sampleProfile)
        (nhdsWithin 50 (Set.Iio 50)) (nhds (getTerrainHeight 50 sampleProfile)) := by
  have h := claim7_sampler_contract sampleProfile sampleProfile_spacing sampleProfile_ne
  refine ⟨?_, ?_, ?_, ?_⟩
  · have h1 := (h (-2) 0).1 (by norm_num)
    rw [h1]
    rfl
  · have h2 := (h 120 0).2.1 (by norm_num [sampleProfile])
    rw [h2]
    rfl
  · have h3 := (h 25 0).2.2.1 (by norm_num [sampleProfile]) (by norm_num) (by norm_num)
    rw [h3]
    norm_num [sampleProfile]
  · have h4 := (h 0 1).2.2.2 (by norm_num) (by norm_num [sampleProfile])
    have hcast : (50 : ℝ) * ((1 : ℕ) : ℝ) = 50 := by norm_num
    rw [hcast] at h4
    exact h4

/-- The JavaScript remainder is the identity on [0, b). -/
lemma jsRem_small_nonneg {a b : ℝ} (hb : 0 < b) (h0 : 0 ≤ a) (h1 : a < b) :
    jsRem a b = a := by
  have hq0 : 0 ≤ a / b := div_nonneg h0 hb.le
  have hfl : ⌊a / b⌋ = 0 := by
    rw [Int.floor_eq_zero_iff]
    exact ⟨hq0, (div_lt_one hb).mpr h1⟩
  unfold jsRem jsTrunc
  rw [if_pos hq0, hfl]
  norm_num

/-- The JavaScript remainder is the identity on (-b, 0). -/
lemma jsRem_small_neg {a b : ℝ} (hb : 0 < b) (h0 : a < 0) (h1 : -b < a) :
    jsRem a b = a := by
  have hq : a / b < 0 := div_neg_of_neg_of_pos h0 hb
  have hq0 : ¬ (0 ≤ a / b) := not_le.mpr hq
  have hcl : ⌈a / b⌉ = 0 := by
    rw [Int.ceil_eq_zero_iff]
    constructor
    · rw [lt_div_iff hb]
      linarith
    · exact hq.le
  unfold jsRem jsTrunc
  rw [if_neg hq0, hcl]
  norm_num

lemma normalizedAngle_small_nonneg {θ : ℝ} (h0 : 0 ≤ θ) (h1 : θ < 2 * Real.pi) :
    normalizedAngle θ = θ := by
  rw [normalizedAngle, jsRem_small_nonneg Real.two_pi_pos h0 h1, abs_of_nonneg h0]

lemma normalizedAngle_small_neg {θ : ℝ} (h0 : θ < 0) (h1 : -(2 * Real.pi) < θ) :
    normalizedAngle θ = -θ := by
  rw [normalizedAngle, jsRem_small_neg Real.two_pi_pos h0 h1, abs_of_neg h0]

lemma normalizedAngle_zero : normalizedAngle 0 = 0 :=
  normalizedAngle_small_nonneg le_rfl Real.two_pi_pos

/-- Math.atan2 always lands in (-pi, pi]. -/
lemma atan2_mem_Ioc (y x : ℝ) : -Real.pi < atan2 y x ∧ atan2 y x ≤ Real.pi := by
  have h := Complex.arg_mem_Ioc ⟨x, y⟩
  exact ⟨h.1, h.2⟩

lemma atan2_zero_of_pos {x : ℝ} (hx : 0 < x) : atan2 0 x = 0 := by
  have he : (⟨x, 0⟩ : ℂ) = (x : ℂ) := rfl
  rw [atan2, he]
  exact Complex.arg_ofReal_of_nonneg hx.le

lemma atan2_zero_of_neg {x : ℝ} (hx : x < 0) : atan2 0 x = Real.pi := by
  have he : (⟨x, 0⟩ : ℂ) = (x : ℂ) := rfl
  rw [atan2, he]
  exact Complex.arg_ofReal_of_neg hx

/-- On flat terrain the alignment target reduces to the sign of the
horizontal wheel-base projection. -/
lemma targetAngle_flat {T : List Point} {c : ℝ} (ht : ∀ z, getTerrainHeight z T = c)
    (b : BikePhysics) : targetAngle b T = atan2 0 (Real.cos b.angle * 70) := by
  simp only [targetAngle, frontWheelX, WHEEL_BASE]
  rw [ht, ht, sub_self, add_sub_cancel_left]

lemma flat3_finish : finishLineX flat3 = none := by
  norm_num [finishLineX, flat3, listGetI]

lemma not_crash_zero : ¬ inCrashWindow 0 := by
  intro h
  have h1 := h.1
  have h2 : 0 < Real.pi / 1.8 := by positivity
  linarith

/-- An upright pose on flat terrain with no nitro and no manual rotation
keeps its angular velocity at zero. -/
lemma newAngularVelocity_flat_zero {T : List Point} {c : ℝ}
    (ht : ∀ z, getTerrainHeight z T = c) (X y V L : ℝ) (i : InputsState)
    (hn : i.nitro = false) (hl : i.left = false) (hr : i.right = false) :
    newAngularVelocity ⟨X, y, V, 0, 0, L⟩ i T = 0 := by
  have hta : targetAngle (⟨X, y, V, 0, 0, L⟩ : BikePhysics) T = 0 := by
    rw [targetAngle_flat ht]
    have hc : Real.cos (⟨X, y, V, 0, 0, L⟩ : BikePhysics).angle * 70 = 70 := by
      norm_num [Real.cos_zero]
    rw [hc]
    exact atan2_zero_of_pos (by norm_num)
  simp only [newAngularVelocity, hta, hn, hl, hr, ROTATION_SPEED, AIR_ROTATION_BOOST,
    ANGULAR_DAMPING]
  norm_num

lemma newVelocity_flat_throttle (X y V L : ℝ) (h0 : 0 ≤ V) (h6 : V < 6) :
    newVelocity ⟨X, y, V, 0, 0, L⟩ throttleInputs = (V + 0.25) * 0.96 := by
  simp only [newVelocity, throttleInputs, currentMaxSpeed]
  norm_num [Real.sin_zero]
  have hA : ¬ (MAX_SPEED < (V + ACCELERATION) * FRICTION) := by
    rw [MAX_SPEED, ACCELERATION, FRICTION]
    push_neg
    linarith
  have hB : ¬ ((V + ACCELERATION) * FRICTION < -MAX_SPEED) := by
    rw [MAX_SPEED, ACCELERATION, FRICTION]
    push_neg
    linarith
  simp only [if_neg hA, if_neg hB]
  norm_num [ACCELERATION, FRICTION]

lemma c5_tick (now tm X V : ℝ) (h0 : 0 ≤ V) (h6 : V < 6) :
    gameLoopBody now (c5State tm X V) =
      c5State ((now - 0) / 1000) (X + (V + 0.25) * 0.96) ((V + 0.25) * 0.96) := by
  have hv := newVelocity_flat_throttle X 300 V 0 h0 h6
  have hav := newAngularVelocity_flat_zero flat3_height X 300 V 0 throttleInputs rfl rfl rfl
  have hna : newAngle ⟨X, 300, V, 0, 0, 0⟩ throttleInputs flat3 = 0 := by
    rw [newAngle, hav]
    norm_num
  have hx : newBikeX ⟨X, 300, V, 0, 0, 0⟩ throttleInputs = X + (V + 0.25) * 0.96 := by
    rw [newBikeX, hv]
    norm_num [Real.cos_zero]
  have hw : ¬ wonCond ⟨X, 300, V, 0, 0, 0⟩ throttleInputs flat3 := by
    rw [wonCond.eq_def, flat3_finish]
    simp
  have hcr0 : ¬ inCrashWindow (normalizedAngle 0) := by
    rw [normalizedAngle_zero]
    exact not_crash_zero
  simp only [gameLoopBody, c5State, hv, hav, hna, hx, hw, hcr0, flat3_height]
  norm_num

lemma c5_iterate (n : ℕ) : ∃ tm X,
    (gameLoopStep 0)^[n] c5Init = c5State tm X (6 - 6 * 0.96 ^ n) := by
  induction n with
  | zero =>
    refine ⟨0, 100, ?_⟩
    rw [Function.iterate_zero_apply, c5Init,
      (by norm_num : (6:ℝ) - 6 * 0.96 ^ 0 = 0)]
  | succ k ih =>
    obtain ⟨tm, X, hk⟩ := ih
    have hq1 : (0.96:ℝ) ^ k ≤ 1 := pow_le_one (by norm_num) (by norm_num)
    have hq0 : (0:ℝ) < 0.96 ^ k := by positivity
    have hV0 : 0 ≤ 6 - 6 * (0.96:ℝ) ^ k := by linarith
    have hV6 : 6 - 6 * (0.96:ℝ) ^ k < 6 := by linarith
    rw [Function.iterate_succ_apply', hk]
    have hstep : gameLoopStep 0 (c5State tm X (6 - 6 * 0.96 ^ k)) =
        gameLoopBody 0 (c5State tm X (6 - 6 * 0.96 ^ k)) := by
      simp [gameLoopStep, c5State]
    rw [hstep, c5_tick 0 tm X (6 - 6 * 0.96 ^ k) hV0 hV6,
      (by rw [pow_succ]; ring : ((6:ℝ) - 6 * 0.96 ^ k + 0.25) * 0.96 = 6 - 6 * 0.96 ^ (k + 1))]
    exact ⟨(0 - 0) / 1000, X + (6 - 6 * 0.96 ^ (k + 1)), rfl⟩

lemma vSeq_eq (n : ℕ) : vSeq n = 6 - 6 * 0.96 ^ n := by
  obtain ⟨tm, X, h⟩ := c5_iterate n
  rw [vSeq, h]
  rfl

lemma vSeq_tendsto : Filter.Tendsto vSeq Filter.atTop (nhds 6) := by
  have h1 : Filter.Tendsto (fun n : ℕ => (0.96:ℝ) ^ n) Filter.atTop (nhds 0) :=
    tendsto_pow_atTop_nhds_zero_of_lt_one (by norm_num) (by norm_num)
  have h3 := Filter.Tendsto.const_sub (6:ℝ) (Filter.Tendsto.const_mul (6:ℝ) h1)
  have h4 : Filter.Tendsto vSeq Filter.atTop (nhds (6 - 6 * 0)) :=
    Filter.Tendsto.congr (fun n => (vSeq_eq n).symm) h3
  simpa using h4

/-- Claim C5 counterexample: in the flat-ground throttle scenario the
velocity sequence does not converge to acceleration / (1 - friction)
(that value is 6.25 while friction is applied after the acceleration is
added, so the true limit is 6). -/
theorem claim5_counterexample :
    ¬ Filter.Tendsto vSeq Filter.atTop (nhds (ACCELERATION / (1 - FRICTION))) := by
  intro hcontra
  have h := tendsto_nhds_unique hcontra vSeq_tendsto
  rw [ACCELERATION, FRICTION] at h
  norm_num at h

/-- Claim C5 (amended): from rest on flat ground with only throttle held,
the per-tick velocity sequence is strictly increasing, converges to
friction * acceleration / (1 - friction) = 6 (friction multiplies after
the acceleration is added), and never exceeds MAX_SPEED. -/
theorem claim5_throttle_monotone_limit :
    StrictMono vSeq ∧
      Filter.Tendsto vSeq Filter.atTop
        (nhds (FRICTION * ACCELERATION / (1 - FRICTION))) ∧
      ∀ n, vSeq n ≤ MAX_SPEED := by
  refine ⟨?_, ?_, ?_⟩
  · intro m n hmn
    rw [vSeq_eq, vSeq_eq]
    have h : (0.96:ℝ) ^ n < 0.96 ^ m := pow_lt_pow_right_of_lt_one (by norm_num) (by norm_num) hmn
    linarith
  · have h6 : FRICTION * ACCELERATION / (1 - FRICTION) = 6 := by
      rw [FRICTION, ACCELERATION]
      norm_num
    rw [h6]
    exact vSeq_tendsto
  · intro n
    rw [vSeq_eq, MAX_SPEED]
    have hq0 : (0:ℝ) < 0.96 ^ n := by positivity
    linarith

set_option maxHeartbeats 1000000 in
/-- From an exactly inverted pose with no spin, one tick changes the
angular velocity by strictly less than 1 downward and at most 0.1
upward, whatever the terrain and inputs are: the alignment spring pulls
by at most (2 pi) * 0.15, nitro auto-flip by 0.02, manual rotation by at
most 0.04 * 1.8, all damped by 0.92. -/
lemma newAngularVelocity_bound_of_pi (s : SysState) (ha : s.bike.angle = Real.pi)
    (hav : s.bike.angularVelocity = 0) :
    -1 < newAngularVelocity s.bike s.inputs s.terrain ∧
      newAngularVelocity s.bike s.inputs s.terrain ≤ 0.1 := by
  have htA := atan2_mem_Ioc
    (getTerrainHeight (frontWheelX s.bike) s.terrain - getTerrainHeight s.bike.x s.terrain)
    (frontWheelX s.bike - s.bike.x)
  have hpi1 : (3.141592 : ℝ) < Real.pi := Real.pi_gt_3141592
  have hpi2 : Real.pi < 3.141593 := Real.pi_lt_3141593
  simp only [newAngularVelocity, targetAngle, ha, hav, ROTATION_SPEED, AIR_ROTATION_BOOST,
    ANGULAR_DAMPING]
  split_ifs <;> constructor <;> linarith [htA.1, htA.2]

/-- Claim C9 (amended): an exactly inverted pose (angle pi, no spin)
ticked once ends Crashed whenever the tick's win condition does not also
fire (the win check runs after the crash check and overwrites the
transition); and a run starting upright (angle 0) never reaches Crashed
over any number of ticks in which the per-tick updated angle is not
driven into the crash window, since the window test is the only crash
source. -/
theorem claim9_crash_window_cases :
    (∀ (now : ℝ) (s : SysState), s.bike.angle = Real.pi → s.bike.angularVelocity = 0 →
      ¬ wonCond s.bike s.inputs s.terrain →
      (gameLoopBody now s).gameState = GameState.CRASHED) ∧
    (∀ (s : SysState) (n : ℕ), s.gameState = GameState.PLAYING → s.bike.angle = 0 →
      (∀ k, k < n → ¬ inCrashWindow (normalizedAngle
        (newAngle ((gameLoopStep 0)^[k] s).bike ((gameLoopStep 0)^[k] s).inputs
          ((gameLoopStep 0)^[k] s).terrain))) →
      ((gameLoopStep 0)^[n] s).gameState ≠ GameState.CRASHED) := by
  constructor
  · intro now s ha hav hw
    obtain ⟨hb1, hb2⟩ := newAngularVelocity_bound_of_pi s ha hav
    have hpi1 : (3.141592 : ℝ) < Real.pi := Real.pi_gt_3141592
    have hpi2 : Real.pi < 3.141593 := Real.pi_lt_3141593
    have hna : newAngle s.bike s.inputs s.terrain =
        Real.pi + newAngularVelocity s.bike s.inputs s.terrain := by
      rw [newAngle, ha]
    have h0 : 0 ≤ Real.pi + newAngularVelocity s.bike s.inputs s.terrain := by linarith
    have h2 : Real.pi + newAngularVelocity s.bike s.inputs s.terrain < 2 * Real.pi := by
      linarith
    have h18 : Real.pi / 1.8 = (5 / 9) * Real.pi := by ring
    have hcr : inCrashWindow (normalizedAngle (newAngle s.bike s.inputs s.terrain)) := by
      rw [hna, normalizedAngle_small_nonneg h0 h2]
      constructor
      · rw [gt_iff_lt, h18]
        linarith
      · linarith
    have hfinal : (gameLoopBody now s).gameState =
        (if wonCond s.bike s.inputs s.terrain then GameState.WON
         else if inCrashWindow (normalizedAngle (newAngle s.bike s.inputs s.terrain))
           then GameState.CRASHED else GameState.PLAYING) := rfl
    rw [hfinal, if_neg hw, if_pos hcr]
  · intro s n hps ha0 hwin
    have key : ∀ k, k ≤ n →
        (((gameLoopStep 0)^[k] s).gameState = GameState.PLAYING ∨
          ((gameLoopStep 0)^[k] s).gameState = GameState.WON) := by
      intro k
      induction k with
      | zero => exact fun _ => Or.inl hps
      | succ j ihj =>
        intro hjn
        have hj := ihj (by omega)
        rw [Function.iterate_succ_apply']
        rcases hj with hp | hw2
        · have hb : gameLoopStep 0 ((gameLoopStep 0)^[j] s) =
              gameLoopBody 0 ((gameLoopStep 0)^[j] s) := by
            rw [gameLoopStep, if_pos hp]
          rw [hb]
          have hnc := hwin j (by omega)
          have hfinal : (gameLoopBody 0 ((gameLoopStep 0)^[j] s)).gameState =
              (if wonCond ((gameLoopStep 0)^[j] s).bike ((gameLoopStep 0)^[j] s).inputs
                  ((gameLoopStep 0)^[j] s).terrain then GameState.WON
               else if inCrashWindow (normalizedAngle
                  (newAngle ((gameLoopStep 0)^[j] s).bike ((gameLoopStep 0)^[j] s).inputs
                    ((gameLoopStep 0)^[j] s).terrain))
                 then GameState.CRASHED else GameState.PLAYING) := rfl
          rw [hfinal]
          rcases Classical.em (wonCond ((gameLoopStep 0)^[j] s).bike
              ((gameLoopStep 0)^[j] s).inputs ((gameLoopStep 0)^[j] s).terrain) with h1 | h1
          · rw [if_pos h1]
            exact Or.inr rfl
          · rw [if_neg h1, if_neg hnc]
            exact Or.inl rfl
        · have hb : gameLoopStep 0 ((gameLoopStep 0)^[j] s) = (gameLoopStep 0)^[j] s := by
            rw [gameLoopStep, hw2]
            simp
          rw [hb]
          exact Or.inr hw2
    rcases key n le_rfl with h | h <;> rw [h] <;> simp

lemma c9PiWin_newVelocity : newVelocity c9PiWinState.bike c9PiWinState.inputs = 0 := by
  have hb : c9PiWinState.bike = ⟨100, 300, 0, Real.pi, 0, 0⟩ := rfl
  have hi : c9PiWinState.inputs = idleInputs := rfl
  rw [hb, hi]
  simp only [newVelocity, idleInputs, currentMaxSpeed]
  norm_num [Real.sin_pi, MAX_SPEED, MAX_NITRO_SPEED, FRICTION, GRAVITY]

/-- Claim C9 counterexample: a pose constructed with angle exactly pi and
ticked once need not end Crashed: sitting at the finish line, the same
tick's win check overwrites the transition and the run ends Won. -/
theorem claim9_counterexample :
    c9PiWinState.bike.angle = Real.pi ∧ c9PiWinState.bike.angularVelocity = 0 ∧
      (gameLoopBody 0 c9PiWinState).gameState = GameState.WON ∧
      (gameLoopBody 0 c9PiWinState).gameState ≠ GameState.CRASHED := by
  have hx : newBikeX c9PiWinState.bike c9PiWinState.inputs = 100 := by
    rw [newBikeX, c9PiWin_newVelocity]
    norm_num [c9PiWinState]
  have hw : wonCond c9PiWinState.bike c9PiWinState.inputs c9PiWinState.terrain := by
    have ht : c9PiWinState.terrain = flatN 21 := rfl
    rw [wonCond.eq_def, ht, flatN21_finish, hx]
    norm_num
  have hfinal : (gameLoopBody 0 c9PiWinState).gameState =
      (if wonCond c9PiWinState.bike c9PiWinState.inputs c9PiWinState.terrain
        then GameState.WON
       else if inCrashWindow (normalizedAngle
          (newAngle c9PiWinState.bike c9PiWinState.inputs c9PiWinState.terrain))
         then GameState.CRASHED else GameState.PLAYING) := rfl
  refine ⟨rfl, rfl, ?_, ?_⟩
  · rw [hfinal, if_pos hw]
  · rw [hfinal, if_pos hw]
    simp

theorem claim9_witness :
    (gameLoopBody 0 c9PiState).gameState = GameState.CRASHED ∧
      ((gameLoopStep 0)^[1] c9ZeroState).gameState ≠ GameState.CRASHED := by
  constructor
  · refine claim9_crash_window_cases.1 0 c9PiState rfl rfl ?_
    have ht : c9PiState.terrain = flat3 := rfl
    rw [wonCond.eq_def, ht, flat3_finish]
    simp
  · refine claim9_crash_window_cases.2 c9ZeroState 1 rfl rfl ?_
    intro k hk
    have hk0 : k = 0 := by omega
    subst hk0
    rw [Function.iterate_zero_apply]
    have hav := newAngularVelocity_flat_zero flat3_height 100 300 0 0 idleInputs rfl rfl rfl
    have hna : newAngle c9ZeroState.bike c9ZeroState.inputs c9ZeroState.terrain = 0 := by
      have hb : c9ZeroState.bike = ⟨100, 300, 0, 0, 0, 0⟩ := rfl
      have hi : c9ZeroState.inputs = idleInputs := rfl
      have ht : c9ZeroState.terrain = flat3 := rfl
      rw [newAngle, hb, hi, ht, hav]
      norm_num
    rw [hna, normalizedAngle_zero]
    exact not_crash_zero

lemma c1_cos_neg : Real.cos (-1.6 : ℝ) < 0 := by
  rw [Real.cos_neg]
  have hpi1 : (3.141592 : ℝ) < Real.pi := Real.pi_gt_3141592
  have hpi2 : Real.pi < 3.141593 := Real.pi_lt_3141593
  exact Real.cos_neg_of_pi_div_two_lt_of_lt (by linarith) (by linarith)

lemma c1_targetAngle :
    targetAngle (⟨100, 300, 0, -1.6, -0.15 * (Real.pi + 1.6), 0⟩ : BikePhysics) flat3 =
      Real.pi := by
  rw [targetAngle_flat flat3_height]
  have hb : Real.cos (⟨100, 300, 0, -1.6, -0.15 * (Real.pi + 1.6), 0⟩ :
      BikePhysics).angle = Real.cos (-1.6 : ℝ) := rfl
  rw [hb]
  exact atan2_zero_of_neg (mul_neg_of_neg_of_pos c1_cos_neg (by norm_num))

lemma c1_newAngle :
    newAngle (⟨100, 300, 0, -1.6, -0.15 * (Real.pi + 1.6), 0⟩ : BikePhysics)
      idleInputs flat3 = -1.6 := by
  have hav : newAngularVelocity
      (⟨100, 300, 0, -1.6, -0.15 * (Real.pi + 1.6), 0⟩ : BikePhysics) idleInputs flat3 = 0 := by
    simp only [newAngularVelocity, c1_targetAngle, idleInputs]
    norm_num
    exact Or.inl (by ring)
  rw [newAngle, hav]
  norm_num

/-- Claim C1 counterexample: after a tick that leaves the angle at -1.6
radians, the angle normalized into [0, 2 pi) by modulus lies inside the
head-down window (it is 2 pi - 1.6, about 268 degrees), yet the run does
not transition to Crashed: the code tests the absolute value of the
truncated remainder, which is 1.6 and outside the window. -/
theorem claim1_counterexample :
    newAngle c1State.bike c1State.inputs c1State.terrain = -1.6 ∧
      inCrashWindow (claimNormalizedAngle (-1.6)) ∧
      (gameLoopBody 0 c1State).gameState ≠ GameState.CRASHED := by
  have hpi1 : (3.141592 : ℝ) < Real.pi := Real.pi_gt_3141592
  have hpi2 : Real.pi < 3.141593 := Real.pi_lt_3141593
  have h18 : Real.pi / 1.8 = (5 / 9) * Real.pi := by ring
  have hb : c1State.bike = ⟨100, 300, 0, -1.6, -0.15 * (Real.pi + 1.6), 0⟩ := rfl
  have hi : c1State.inputs = idleInputs := rfl
  have ht : c1State.terrain = flat3 := rfl
  have hna : newAngle c1State.bike c1State.inputs c1State.terrain = -1.6 := by
    rw [hb, hi, ht]
    exact c1_newAngle
  refine ⟨hna, ?_, ?_⟩
  · have hfloor : ⌊(-1.6 : ℝ) / (2 * Real.pi)⌋ = -1 := by
      rw [Int.floor_eq_iff]
      constructor
      · push_cast
        rw [le_div_iff Real.two_pi_pos]
        linarith
      · push_cast
        have hneg : (-1.6 : ℝ) / (2 * Real.pi) < 0 :=
          div_neg_of_neg_of_pos (by norm_num) Real.two_pi_pos
        linarith
    rw [claimNormalizedAngle, hfloor]
    push_cast
    constructor
    · rw [gt_iff_lt, h18]
      linarith
    · linarith
  · have hnorm : normalizedAngle (-1.6) = 1.6 := by
      rw [normalizedAngle_small_neg (by norm_num) (by linarith)]
      norm_num
    have hncc : ¬ inCrashWindow (1.6 : ℝ) := by
      intro h
      have h1 := h.1
      rw [gt_iff_lt, h18] at h1
      linarith
    have hw : ¬ wonCond c1State.bike c1State.inputs c1State.terrain := by
      rw [wonCond.eq_def, ht, flat3_finish]
      simp
    have hfinal : (gameLoopBody 0 c1State).gameState =
        (if wonCond c1State.bike c1State.inputs c1State.terrain then GameState.WON
         else if inCrashWindow (normalizedAngle
            (newAngle c1State.bike c1State.inputs c1State.terrain))
           then GameState.CRASHED else GameState.PLAYING) := rfl
    rw [hfinal, if_neg hw, hna, hnorm, if_neg hncc]
    simp
